import Mathlib

/-!
Verification development for the Simian repository process supervisor
(OllamaManager in ollama-manager.js) and the editor extension collaborator
(MonkeyAI in extension.js).

The JavaScript code is embedded shallowly: every nondeterministic input
(HTTP responses, existence-probe outcomes, post-spawn reachability checks,
child-process exit codes, user dialog choices) is an explicit oracle
parameter, and each operation is a pure Lean function from oracles and the
supervisor state to a result, a new state, and a trace of observable events
(probes, spawns, timer firings, rechecks, kills).
-/

/-- Platform discriminator, mirroring the result of os.platform(). -/
inductive Platform
  | win32
  | darwin
  | linux
deriving DecidableEq, Repr

/-- Candidate executable locations, copied verbatim from
OllamaManager.getOllamaPath. -/
def getOllamaPath (os : Platform) : List String :=
  match os with
  | .win32 =>
      ["ollama.exe",
       "C:\\Users\\%USERNAME%\\AppData\\Local\\Programs\\Ollama\\ollama.exe",
       "C:\\Program Files\\Ollama\\ollama.exe",
       "C:\\Program Files (x86)\\Ollama\\ollama.exe"]
  | .darwin =>
      ["/usr/local/bin/ollama",
       "/opt/homebrew/bin/ollama",
       "~/Applications/Ollama.app/Contents/Resources/ollama"]
  | .linux =>
      ["/usr/local/bin/ollama",
       "/usr/bin/ollama",
       "~/.local/bin/ollama",
       "./ollama"]

/-- Outcome of the single HTTP GET to the health endpoint
http://localhost:PORT/api/tags, as observed by isOllamaRunning. -/
inductive NetResult
  | response (status : Nat)
  | netError
  | timedOut
deriving DecidableEq, Repr

/-- OllamaManager.isOllamaRunning. The function resolves a boolean and never
rejects, so the embedding is a total Bool-valued function. When a global
fetch is available the code resolves response.ok, which is true exactly for
statuses 200..299; in the Node http fallback it resolves
res.statusCode === 200. Connection errors and timeouts resolve false in
both branches. -/
def isOllamaRunning (fetchAvailable : Bool) (r : NetResult) : Bool :=
  if fetchAvailable then
    match r with
    | .response st => decide (200 ≤ st) && decide (st ≤ 299)
    | .netError => false
    | .timedOut => false
  else
    match r with
    | .response st => st == 200
    | .netError => false
    | .timedOut => false

/-- Mutable fields of an OllamaManager instance that the supervision logic
reads and writes. A spawned child process handle is identified by the index
of the candidate path it was spawned from. -/
structure MState where
  ollamaProcess : Option Nat
  isStarting : Bool
deriving DecidableEq, Repr

/-- State set up by the OllamaManager constructor: no owned process handle
and the starting flag clear. -/
def initState : MState := { ollamaProcess := none, isStarting := false }

/-- Oracle for one startOllama call: the result of the initial reachability
check, and per candidate index the outcome of the existence probe
(exec PATH --version) and of the reachability re-check performed when the
3 second settle timer fires. Indices beyond the recorded lists default to
false, matching a probe or check that fails. -/
structure StartEnv where
  reachableAtStart : Bool
  probeOk : List Bool
  settleReachable : List Bool
deriving DecidableEq, Repr

/-- Existence-probe outcome for candidate index i. -/
def probeAt (e : StartEnv) (i : Nat) : Bool := e.probeOk.getD i false

/-- Post-spawn settle-window reachability result for candidate index i. -/
def settleAt (e : StartEnv) (i : Nat) : Bool := e.settleReachable.getD i false

/-- Observable events of a startOllama run. settleTimer is the firing of the
3 second setTimeout after a spawn, at which the code sets isStarting to
false before awaiting the reachability re-check. -/
inductive Event
  | probe (i : Nat) (ok : Bool)
  | spawn (i : Nat)
  | settleTimer (i : Nat)
  | recheck (i : Nat) (ok : Bool)
  | kill (i : Nat)
deriving DecidableEq, Repr

/-- How a startOllama call finishes: the early return undefined taken when
isStarting is already set, a resolution with true, or a rejection carrying
the error message. -/
inductive StartResult
  | guardReturn
  | success
  | failure (msg : String)
deriving DecidableEq, Repr

/-- Rejection message produced when every candidate path is exhausted. -/
def notFoundMsg : String := "Ollama executable not found. Please install Ollama first."

/-- The tryNextPath loop inside OllamaManager.startOllama. For each
candidate: run the existence probe; on probe failure advance to the next
candidate; on success spawn the candidate (the handle becomes owned), let
the settle timer fire (clearing isStarting), re-check reachability; on a
positive re-check resolve true, otherwise kill the spawn, clear the handle
and advance. Exhaustion clears isStarting and rejects with notFoundMsg.
The trace records each event paired with the state right after it. -/
def tryPaths (env : StartEnv) :
    List String → Nat → MState → StartResult × MState × List (Event × MState)
  | [], _, s =>
      (.failure notFoundMsg, { s with isStarting := false }, [])
  | _ :: rest, i, s =>
      if probeAt env i then
        let s1 : MState := { s with ollamaProcess := some i }
        let s2 : MState := { s1 with isStarting := false }
        if settleAt env i then
          (.success, s2,
           [(.probe i true, s), (.spawn i, s1), (.settleTimer i, s2), (.recheck i true, s2)])
        else
          let s3 : MState := { s2 with ollamaProcess := none }
          let out := tryPaths env rest (i + 1) s3
          (out.1, out.2.1,
           (Event.probe i true, s) :: (Event.spawn i, s1) :: (Event.settleTimer i, s2)
             :: (Event.recheck i false, s2) :: (Event.kill i, s3) :: out.2.2)
      else
        let out := tryPaths env rest (i + 1) s
        (out.1, out.2.1, (Event.probe i false, s) :: out.2.2)

/-- OllamaManager.startOllama: return at once when a start is already in
progress; resolve true without any spawn when the service is already
reachable; otherwise set isStarting and walk the candidate paths. -/
def startOllama (os : Platform) (env : StartEnv) (s : MState) :
    StartResult × MState × List (Event × MState) :=
  if s.isStarting then (.guardReturn, s, [])
  else if env.reachableAtStart then (.success, s, [])
  else tryPaths env (getOllamaPath os) 0 { s with isStarting := true }

/-- Oracle for one iteration of the ensureOllamaRunning retry loop: the
reachability check at the top of the loop, the oracle handed to the inner
startOllama call, and the reachability re-check after the retryDelay wait. -/
structure AttemptEnv where
  preCheck : Bool
  startEnv : StartEnv
  postCheck : Bool

/-- Error message thrown by ensureOllamaRunning once every retry failed. -/
def failMsg (maxRetries : Nat) : String :=
  "Failed to start Ollama after " ++ toString maxRetries ++ " attempts"

/-- True exactly when a startOllama call rejected, which is the case the
try/catch in ensureOllamaRunning catches. -/
def isFailure : StartResult → Bool
  | .failure _ => true
  | _ => false

/-- The while loop of OllamaManager.ensureOllamaRunning, one list element
per remaining iteration. Returns the result, the final state, the number of
loop iterations entered, and the concatenated startOllama traces. A caught
rejection advances to the next iteration exactly like an iteration whose
final reachability check failed. -/
def ensureLoop (os : Platform) (maxRetries : Nat) :
    List AttemptEnv → MState → Except String Bool × MState × Nat × List (Event × MState)
  | [], s => (.error (failMsg maxRetries), s, 0, [])
  | a :: rest, s =>
      if a.preCheck then (.ok true, s, 1, [])
      else
        let st := startOllama os a.startEnv s
        if isFailure st.1 then
          let out := ensureLoop os maxRetries rest st.2.1
          (out.1, out.2.1, out.2.2.1 + 1, st.2.2 ++ out.2.2.2)
        else if a.postCheck then (.ok true, st.2.1, 1, st.2.2)
        else
          let out := ensureLoop os maxRetries rest st.2.1
          (out.1, out.2.1, out.2.2.1 + 1, st.2.2 ++ out.2.2.2)

/-- OllamaManager.ensureOllamaRunning with the default maxRetries supplied
by the caller: runs at most maxRetries loop iterations, consulting the
attempt oracle for iteration indices 0, 1, .... -/
def ensureOllamaRunning (os : Platform) (maxRetries : Nat) (env : Nat → AttemptEnv)
    (s : MState) : Except String Bool × MState × Nat × List (Event × MState) :=
  ensureLoop os maxRetries ((List.range maxRetries).map env) s

/-- OllamaManager.stopOllama: when a handle is owned, send SIGTERM to it
(the returned list records the handles signalled) and clear the field;
otherwise do nothing. -/
def stopOllama (s : MState) : MState × List Nat :=
  match s.ollamaProcess with
  | some h => ({ s with ollamaProcess := none }, [h])
  | none => (s, [])

/-- Outcome of the resource-listing query in ensureModel: the awaited fetch
or JSON parse threw, or it produced a body whose models field is absent
(none) or a list of model names. -/
inductive TagsOutcome
  | fetchError
  | models (ms : Option (List String))
deriving DecidableEq, Repr

/-- Outcome of the spawned pull subprocess: an exit event with a code, or
an error event with a message. -/
inductive PullOutcome
  | exited (code : Int)
  | procError (msg : String)
deriving DecidableEq, Repr

/-- Record of a spawned subcommand: executable path and argument list. -/
structure SpawnCmd where
  exePath : String
  args : List String
deriving DecidableEq, Repr

/-- OllamaManager.ensureModel. A listing failure is caught and yields
ok false. An empty or absent models list triggers spawning
PATHS[0] pull NAME; exit code 0 resolves true and any other exit or a
process error rejects. Because the code returns the pull promise without
awaiting it inside the try block, a pull rejection is not caught by the
surrounding catch and propagates to the caller, hence the .error results.
A non-empty list resolves true with no spawn. -/
def ensureModel (os : Platform) (tags : TagsOutcome) (pull : PullOutcome)
    (modelName : String) : Except String Bool × List SpawnCmd :=
  match tags with
  | .fetchError => (.ok false, [])
  | .models ms =>
      let noModels := match ms with
        | none => true
        | some l => l.isEmpty
      if noModels then
        let ollamaPath := (getOllamaPath os).headD ""
        let cmd : SpawnCmd := { exePath := ollamaPath, args := ["pull", modelName] }
        match pull with
        | .exited code =>
            if code = 0 then (.ok true, [cmd])
            else (.error ("Failed to pull " ++ modelName), [cmd])
        | .procError m =>
            (.error ("Error pulling " ++ modelName ++ ": " ++ m), [cmd])
      else (.ok true, [])

/-- User choice offered by the failure dialog in MonkeyAI.ensureOllamaReady. -/
inductive Choice
  | useAPI
  | tryAgain
  | cancel
deriving DecidableEq, Repr

/-- Oracle for one round of MonkeyAI.ensureOllamaReady: the useOllama
configuration value read at entry, the result of the initial
isOllamaRunning call, whether ensureOllamaRunning resolves, whether
ensureModel resolves, and the dialog choice taken on failure. -/
structure ReadyEnv where
  useOllama : Bool
  running : Bool
  ensureRunOk : Bool
  ensureModelOk : Bool
  choice : Choice

/-- Actions ensureOllamaReady can perform against the supervisor: the
isOllamaRunning health probe, the ensureOllamaRunning call (which may spawn
processes), and the ensureModel call (which may pull a model). -/
inductive RAct
  | healthCheck
  | ensureRun
  | pullModel
deriving DecidableEq, Repr

/-- MonkeyAI.ensureOllamaReady. Returns true at once when useOllama is
false. When already initialized and the service answers the health probe,
returns true. Otherwise runs ensureOllamaRunning then ensureModel inside a
try; on success marks the instance initialized and returns true; on a
caught failure the dialog choice decides: Use API returns true, Try Again
recurses (bounded here by explicit fuel, with none marking fuel
exhaustion), anything else returns false. The short-circuit in the source
skips the health probe entirely when isInitialized is false. -/
def ensureOllamaReady (env : Nat → ReadyEnv) :
    Nat → Bool → Nat → Option Bool × Bool × List RAct
  | _, isInit, 0 => (none, isInit, [])
  | round, isInit, fuel + 1 =>
      let e := env round
      if !e.useOllama then (some true, isInit, [])
      else if isInit && e.running then (some true, isInit, [.healthCheck])
      else
        let checkActs : List RAct := if isInit then [.healthCheck] else []
        if e.ensureRunOk then
          if e.ensureModelOk then
            (some true, true, checkActs ++ [.ensureRun, .pullModel])
          else
            match e.choice with
            | .useAPI => (some true, isInit, checkActs ++ [.ensureRun, .pullModel])
            | .tryAgain =>
                let out := ensureOllamaReady env (round + 1) isInit fuel
                (out.1, out.2.1, checkActs ++ [.ensureRun, .pullModel] ++ out.2.2)
            | .cancel => (some false, isInit, checkActs ++ [.ensureRun, .pullModel])
        else
          match e.choice with
          | .useAPI => (some true, isInit, checkActs ++ [.ensureRun])
          | .tryAgain =>
              let out := ensureOllamaReady env (round + 1) isInit fuel
              (out.1, out.2.1, checkActs ++ [.ensureRun] ++ out.2.2)
          | .cancel => (some false, isInit, checkActs ++ [.ensureRun])

/-- Number of process handles a state owns: the ollamaProcess field holds
at most one. -/
def ownedCount (s : MState) : Nat :=
  match s.ollamaProcess with
  | some _ => 1
  | none => 0

/-- Checks along a trace, threading the currently owned handle, that every
spawn event happens while no handle is owned. -/
def noDoubleOwn (h : Option Nat) : List (Event × MState) → Bool
  | [] => true
  | (e, st) :: rest =>
      (match e with
       | Event.spawn _ => h == none
       | _ => true) && noDoubleOwn st.ollamaProcess rest

/-- True when nothing at all follows a settle-window re-check that reported
the spawned candidate reachable: no further probe, spawn or kill. -/
def noAttemptAfterSuccess : List (Event × MState) → Bool
  | [] => true
  | (Event.recheck _ true, _) :: rest => rest.isEmpty
  | _ :: rest => noAttemptAfterSuccess rest

/-- True when from the first settle-timer firing onward (the timer event
included) every state in the trace has the starting flag clear. -/
def afterTimerNotStarting (seen : Bool) : List (Event × MState) → Bool
  | [] => true
  | (e, st) :: rest =>
      let seen2 := seen || (match e with | Event.settleTimer _ => true | _ => false)
      (!seen2 || !st.isStarting) && afterTimerNotStarting seen2 rest

/-! Claim theorems. -/

/-- C3 counterexample: with a global fetch available the health check
resolves response.ok, so an HTTP 204 answer makes checkReachable return
true even though the status is not 200, refuting the claim that any
non-200 status yields false. -/
theorem C3_fetch_branch_accepts_204 :
    isOllamaRunning true (NetResult.response 204) = true ∧ (204 : Nat) ≠ 200 := by
  decide

/-- C3 amended: checkReachable never throws (it is a total boolean
function of the observed network outcome); on the Node http path it
returns true exactly on status 200, on the fetch path exactly on a 2xx
status (response.ok); network errors and timeouts, in particular the
connection failure seen when nothing listens on the port, always yield
false. -/
theorem C3_reachable_characterization :
    (∀ r, isOllamaRunning false r = true ↔ r = NetResult.response 200) ∧
    (∀ r, isOllamaRunning true r = true ↔
        ∃ st, r = NetResult.response st ∧ 200 ≤ st ∧ st ≤ 299) ∧
    (∀ f, isOllamaRunning f NetResult.netError = false) ∧
    (∀ f, isOllamaRunning f NetResult.timedOut = false) := by
  refine ⟨?_, ?_, ?_, ?_⟩
  · intro r
    cases r with
    | response st =>
        simp only [isOllamaRunning, if_neg (by simp : ¬ (false = true))]
        constructor
        · intro h
          have : st = 200 := by simpa using h
          simp [this]
        · intro h
          have : st = 200 := by simpa using h
          simp [this]
    | netError => simp [isOllamaRunning]
    | timedOut => simp [isOllamaRunning]
  · intro r
    cases r with
    | response st =>
        simp only [isOllamaRunning, if_pos rfl]
        constructor
        · intro h
          refine ⟨st, rfl, ?_, ?_⟩
          · exact of_decide_eq_true (Bool.and_elim_left h)
          · exact of_decide_eq_true (Bool.and_elim_right h)
        · rintro ⟨st2, heq, h1, h2⟩
          cases heq
          simp [h1, h2]
    | netError => simp [isOllamaRunning]
    | timedOut => simp [isOllamaRunning]
  · intro f; cases f <;> rfl
  · intro f; cases f <;> rfl

/-- C3 witness: the amended characterization applied at a concrete
accepted status for each branch. -/
theorem C3_reachable_witness :
    isOllamaRunning false (NetResult.response 200) = true ∧
    isOllamaRunning true (NetResult.response 204) = true := by
  constructor
  · exact (C3_reachable_characterization.1 _).mpr rfl
  · exact (C3_reachable_characterization.2.1 _).mpr ⟨204, rfl, by decide, by decide⟩

/-- When every settle-window re-check fails, the candidate walk always ends
in the not-found rejection: probes may succeed and spawn, but each spawn is
killed and its handle cleared, so from a state owning no handle the walk
finishes at the constructor state. -/
theorem tryPaths_settle_fail (env : StartEnv) (hs : ∀ j, settleAt env j = false) :
    ∀ (paths : List String) (i : Nat) (s : MState), s.ollamaProcess = none →
      (tryPaths env paths i s).1 = .failure notFoundMsg ∧
      (tryPaths env paths i s).2.1 = initState := by
  intro paths
  induction paths with
  | nil =>
      intro i s h
      cases s with
      | mk p b =>
          cases h
          exact ⟨rfl, rfl⟩
  | cons p rest ih =>
      intro i s h
      by_cases hp : probeAt env i = true
      · have h3 := ih (i + 1) { ollamaProcess := none, isStarting := false } rfl
        constructor
        · simpa [tryPaths, hp, hs i] using h3.1
        · simpa [tryPaths, hp, hs i] using h3.2
      · have h3 := ih (i + 1) s h
        constructor
        · simpa [tryPaths, hp] using h3.1
        · simpa [tryPaths, hp] using h3.2

/-- When every existence probe fails, no spawn happens at all: the walk
just clears isStarting and rejects, leaving the handle field untouched. -/
theorem tryPaths_probe_fail (env : StartEnv) (hp : ∀ j, probeAt env j = false) :
    ∀ (paths : List String) (i : Nat) (s : MState),
      (tryPaths env paths i s).1 = .failure notFoundMsg ∧
      (tryPaths env paths i s).2.1 = { s with isStarting := false } := by
  intro paths
  induction paths with
  | nil => intro i s; exact ⟨rfl, rfl⟩
  | cons p rest ih =>
      intro i s
      have h3 := ih (i + 1) s
      constructor
      · simpa [tryPaths, hp i] using h3.1
      · simpa [tryPaths, hp i] using h3.2

/-- A startOllama call that starts unreachable, from the constructor state,
with every settle re-check failing, rejects with the not-found message and
returns to the constructor state. -/
theorem startOllama_unreachable_fail (os : Platform) (env : StartEnv)
    (hr : env.reachableAtStart = false) (hs : ∀ j, settleAt env j = false) :
    (startOllama os env initState).1 = .failure notFoundMsg ∧
    (startOllama os env initState).2.1 = initState := by
  have h := tryPaths_settle_fail env hs (getOllamaPath os) 0
      { ollamaProcess := none, isStarting := true } rfl
  constructor
  · simpa [startOllama, initState, hr] using h.1
  · simpa [startOllama, initState, hr] using h.2

/-- When every iteration of the retry loop sees an unreachable service and
a rejecting startOllama that returns the state to the constructor state,
the loop runs every iteration, ends back at the constructor state and
throws the retries-exhausted error. -/
theorem ensureLoop_start_fails (os : Platform) (maxRetries : Nat) :
    ∀ l : List AttemptEnv,
      (∀ a ∈ l, a.preCheck = false ∧ a.postCheck = false ∧
        (startOllama os a.startEnv initState).1 = .failure notFoundMsg ∧
        (startOllama os a.startEnv initState).2.1 = initState) →
      (ensureLoop os maxRetries l initState).1 = .error (failMsg maxRetries) ∧
      (ensureLoop os maxRetries l initState).2.1 = initState ∧
      (ensureLoop os maxRetries l initState).2.2.1 = l.length := by
  intro l
  induction l with
  | nil => intro _; exact ⟨rfl, rfl, rfl⟩
  | cons a rest ih =>
      intro h
      obtain ⟨hpre, hpost, h1, h2⟩ := h a (List.mem_cons_self a rest)
      have h3 := ih (fun b hb => h b (List.mem_cons_of_mem a hb))
      refine ⟨?_, ?_, ?_⟩ <;>
        simp [ensureLoop, hpre, h1, h2, isFailure, h3.1, h3.2.1, h3.2.2]

/-- C1: in a run of ensureOllamaRunning in which no reachability check ever
succeeds (neither the loop checks, nor the check at the head of
startOllama, nor any settle-window re-check), every startOllama rejection
is caught and counted as one failed attempt, the loop enters exactly
maxRetries iterations, it then throws the error naming the attempt count,
and the final state owns no process handle. -/
theorem C1_retries_exhausted (os : Platform) (maxRetries : Nat) (env : Nat → AttemptEnv)
    (hpre : ∀ i, (env i).preCheck = false)
    (hpost : ∀ i, (env i).postCheck = false)
    (hreach : ∀ i, (env i).startEnv.reachableAtStart = false)
    (hsettle : ∀ i j, settleAt (env i).startEnv j = false) :
    (ensureOllamaRunning os maxRetries env initState).1 =
      .error ("Failed to start Ollama after " ++ toString maxRetries ++ " attempts") ∧
    (ensureOllamaRunning os maxRetries env initState).2.1.ollamaProcess = none ∧
    (ensureOllamaRunning os maxRetries env initState).2.2.1 = maxRetries := by
  have hall : ∀ a ∈ (List.range maxRetries).map env, a.preCheck = false ∧
      a.postCheck = false ∧
      (startOllama os a.startEnv initState).1 = .failure notFoundMsg ∧
      (startOllama os a.startEnv initState).2.1 = initState := by
    intro a ha
    obtain ⟨i, _, rfl⟩ := List.mem_map.mp ha
    obtain ⟨h1, h2⟩ := startOllama_unreachable_fail os (env i).startEnv (hreach i)
        (hsettle i)
    exact ⟨hpre i, hpost i, h1, h2⟩
  have h := ensureLoop_start_fails os maxRetries _ hall
  refine ⟨?_, ?_, ?_⟩
  · have := h.1
    unfold ensureOllamaRunning
    simpa [failMsg] using this
  · have := h.2.1
    unfold ensureOllamaRunning
    rw [this]
    rfl
  · have := h.2.2
    unfold ensureOllamaRunning
    simpa using this

/-- C1 witness: with three attempts, no candidates recorded and every
check failing, the loop throws after exactly 3 counted attempts with no
handle owned. -/
theorem C1_retries_exhausted_witness :
    (ensureOllamaRunning .linux 3 (fun _ => ⟨false, ⟨false, [], []⟩, false⟩) initState).1 =
      .error "Failed to start Ollama after 3 attempts" ∧
    (ensureOllamaRunning .linux 3
        (fun _ => ⟨false, ⟨false, [], []⟩, false⟩) initState).2.2.1 = 3 := by
  have h := C1_retries_exhausted .linux 3 (fun _ => ⟨false, ⟨false, [], []⟩, false⟩)
      (fun _ => rfl) (fun _ => rfl) (fun _ => rfl)
      (fun _ j => by simp [settleAt])
  exact ⟨h.1, h.2.2⟩

/-- A startOllama call that starts unreachable with every existence probe
failing rejects with the not-found message and returns to the constructor
state without ever spawning. -/
theorem startOllama_probe_fail (os : Platform) (env : StartEnv)
    (hr : env.reachableAtStart = false) (hp : ∀ j, probeAt env j = false) :
    (startOllama os env initState).1 = .failure notFoundMsg ∧
    (startOllama os env initState).2.1 = initState := by
  have h := tryPaths_probe_fail env hp (getOllamaPath os) 0
      { ollamaProcess := none, isStarting := true }
  constructor
  · simpa [startOllama, initState, hr] using h.1
  · simpa [startOllama, initState, hr] using h.2

/-- C5: when every candidate existence probe fails, startOllama rejects
with the message referencing the missing executable; the Linux candidate
list has exactly four entries; and a subsequent ensureOllamaRunning under
the same conditions exhausts its three retries and throws the error naming
3 attempts. -/
theorem C5_executable_not_found (env : StartEnv) (envf : Nat → AttemptEnv)
    (hp : ∀ j, probeAt env j = false)
    (hr : env.reachableAtStart = false)
    (hf : ∀ i, envf i = ⟨false, env, false⟩) :
    (getOllamaPath .linux).length = 4 ∧
    (startOllama .linux env initState).1 = .failure notFoundMsg ∧
    notFoundMsg = "Ollama executable not found. Please install Ollama first." ∧
    (ensureOllamaRunning .linux 3 envf initState).1 =
      .error "Failed to start Ollama after 3 attempts" := by
  obtain ⟨h1, h2⟩ := startOllama_probe_fail .linux env hr hp
  refine ⟨rfl, h1, rfl, ?_⟩
  have hall : ∀ a ∈ (List.range 3).map envf, a.preCheck = false ∧
      a.postCheck = false ∧
      (startOllama .linux a.startEnv initState).1 = .failure notFoundMsg ∧
      (startOllama .linux a.startEnv initState).2.1 = initState := by
    intro a ha
    obtain ⟨i, _, rfl⟩ := List.mem_map.mp ha
    rw [hf i]
    exact ⟨rfl, rfl, h1, h2⟩
  have h := ensureLoop_start_fails .linux 3 _ hall
  have h3 := h.1
  unfold ensureOllamaRunning
  rw [h3]
  rfl

/-- C5 witness: with no probe ever succeeding the call chain fails as the
theorem states at a concrete environment. -/
theorem C5_executable_not_found_witness :
    (startOllama .linux ⟨false, [], []⟩ initState).1 = .failure notFoundMsg ∧
    (ensureOllamaRunning .linux 3 (fun _ => ⟨false, ⟨false, [], []⟩, false⟩) initState).1 =
      .error "Failed to start Ollama after 3 attempts" := by
  have h := C5_executable_not_found ⟨false, [], []⟩
      (fun _ => ⟨false, ⟨false, [], []⟩, false⟩)
      (fun j => by simp [probeAt]) rfl (fun _ => rfl)
  exact ⟨h.2.1, h.2.2.2⟩

/-- C6: when the service is already reachable at call time, startOllama
resolves true at once with the state unchanged and an empty event trace
(no spawn), and ensureOllamaRunning returns ok true after its very first
reachability check, also with no spawn and the state unchanged. -/
theorem C6_already_reachable_immediate (os : Platform) (env : StartEnv)
    (envf : Nat → AttemptEnv) (k : Nat) (s : MState)
    (hns : s.isStarting = false)
    (hr : env.reachableAtStart = true)
    (hpre : (envf 0).preCheck = true) :
    startOllama os env s = (.success, s, []) ∧
    ensureOllamaRunning os (k + 1) envf s = (.ok true, s, 1, []) := by
  constructor
  · simp [startOllama, hns, hr]
  · unfold ensureOllamaRunning
    rw [List.range_succ_eq_map]
    simp [ensureLoop, hpre]

/-- C6 witness: concrete reachable environment, three retries configured. -/
theorem C6_already_reachable_witness :
    startOllama .linux ⟨true, [], []⟩ initState = (.success, initState, []) ∧
    ensureOllamaRunning .linux 3 (fun _ => ⟨true, ⟨true, [], []⟩, true⟩) initState =
      (.ok true, initState, 1, []) := by
  exact C6_already_reachable_immediate .linux ⟨true, [], []⟩
      (fun _ => ⟨true, ⟨true, [], []⟩, true⟩) 2 initState rfl rfl rfl

/-- Along any candidate walk started while owning no handle, every spawn
event occurs while no handle is owned: the kill branch clears the handle
before the walk advances to the next candidate. -/
theorem tryPaths_noDoubleOwn (env : StartEnv) :
    ∀ (paths : List String) (i : Nat) (s : MState), s.ollamaProcess = none →
      noDoubleOwn s.ollamaProcess (tryPaths env paths i s).2.2 = true := by
  intro paths
  induction paths with
  | nil => intro i s h; rfl
  | cons p rest ih =>
      intro i s h
      by_cases hp : probeAt env i = true
      · by_cases hsl : settleAt env i = true
        · simp [tryPaths, hp, hsl, noDoubleOwn, h]
        · have h3 := ih (i + 1) { ollamaProcess := none, isStarting := false } rfl
          simp only [noDoubleOwn] at h3
          simp [tryPaths, hp, hsl, noDoubleOwn, h, h3]
      · have h3 := ih (i + 1) s h
        rw [h] at h3
        simp [tryPaths, hp, noDoubleOwn, h, h3]

/-- C2: a startOllama call made while the starting flag is set returns
immediately with the state unchanged, an empty trace (no spawn, no
queueing) and no rejection; every state reached during a call owns at most
one process handle; and from a state owning no handle, every spawn in the
call happens while no handle is owned. -/
theorem C2_guard_and_single_handle (os : Platform) (env : StartEnv) (s : MState) :
    (s.isStarting = true → startOllama os env s = (.guardReturn, s, [])) ∧
    (∀ es ∈ (startOllama os env s).2.2, ownedCount es.2 ≤ 1) ∧
    (s.ollamaProcess = none →
      noDoubleOwn s.ollamaProcess (startOllama os env s).2.2 = true) := by
  refine ⟨?_, ?_, ?_⟩
  · intro h
    simp [startOllama, h]
  · intro es _
    cases hes : es.2.ollamaProcess <;> simp [ownedCount, hes]
  · intro h
    by_cases hst : s.isStarting = true
    · simp [startOllama, hst, noDoubleOwn]
    · by_cases hr : env.reachableAtStart = true
      · simp [startOllama, hst, hr, noDoubleOwn]
      · have h3 := tryPaths_noDoubleOwn env (getOllamaPath os) 0
            { s with isStarting := true } (by simpa using h)
        simp only [startOllama, hst, hr] at *
        simpa [h] using h3

/-- C2 witness: the guard returns unchanged on a starting state, and a
fresh instance with one working candidate never spawns while owning. -/
theorem C2_guard_witness :
    startOllama .linux ⟨false, [], []⟩ { ollamaProcess := none, isStarting := true } =
      (.guardReturn, { ollamaProcess := none, isStarting := true }, []) ∧
    noDoubleOwn none
      (startOllama .linux ⟨false, [true, true], [false, true]⟩ initState).2.2 = true := by
  constructor
  · exact (C2_guard_and_single_handle .linux ⟨false, [], []⟩
      { ollamaProcess := none, isStarting := true }).1 rfl
  · exact (C2_guard_and_single_handle .linux ⟨false, [true, true], [false, true]⟩
      initState).2.2 rfl

/-- In any candidate walk, nothing follows a settle-window re-check that
reported the spawned candidate reachable. -/
theorem tryPaths_noAttemptAfterSuccess (env : StartEnv) :
    ∀ (paths : List String) (i : Nat) (s : MState),
      noAttemptAfterSuccess (tryPaths env paths i s).2.2 = true := by
  intro paths
  induction paths with
  | nil => intro i s; rfl
  | cons p rest ih =>
      intro i s
      by_cases hp : probeAt env i = true
      · by_cases hsl : settleAt env i = true
        · simp [tryPaths, hp, hsl, noAttemptAfterSuccess]
        · have h3 := ih (i + 1)
            { ollamaProcess := none, isStarting := false }
          simp [tryPaths, hp, hsl, noAttemptAfterSuccess, h3]
      · have h3 := ih (i + 1) s
        simp [tryPaths, hp, noAttemptAfterSuccess, h3]

/-- C7: within a single startOllama call, once a spawned candidate reports
itself reachable in the settle-window re-check, the call performs no
further action at all, in particular it never probes or spawns a later
candidate path. -/
theorem C7_no_attempt_after_success (os : Platform) (env : StartEnv) (s : MState) :
    noAttemptAfterSuccess (startOllama os env s).2.2 = true := by
  by_cases hst : s.isStarting = true
  · simp [startOllama, hst, noAttemptAfterSuccess]
  · by_cases hr : env.reachableAtStart = true
    · simp [startOllama, hst, hr, noAttemptAfterSuccess]
    · have h3 := tryPaths_noAttemptAfterSuccess env (getOllamaPath os) 0
        { s with isStarting := true }
      simpa [startOllama, hst, hr] using h3

/-- The candidate walk never sets the starting flag: from a state with the
flag clear, every state in the trace and the final state keep it clear. -/
theorem tryPaths_states_not_starting (env : StartEnv) :
    ∀ (paths : List String) (i : Nat) (s : MState), s.isStarting = false →
      (∀ es ∈ (tryPaths env paths i s).2.2, es.2.isStarting = false) ∧
      (tryPaths env paths i s).2.1.isStarting = false := by
  intro paths
  induction paths with
  | nil =>
      intro i s h
      exact ⟨by intro es hes; simp [tryPaths] at hes, rfl⟩
  | cons p rest ih =>
      intro i s h
      by_cases hp : probeAt env i = true
      · by_cases hsl : settleAt env i = true
        · constructor
          · intro es hes
            simp [tryPaths, hp, hsl] at hes
            rcases hes with h1 | h1 | h1 | h1 <;> simp [h1, h]
          · simp [tryPaths, hp, hsl]
        · have h3 := ih (i + 1) { ollamaProcess := none, isStarting := false } rfl
          constructor
          · intro es hes
            simp [tryPaths, hp, hsl] at hes
            rcases hes with h1 | h1 | h1 | h1 | h1 | h1
            · simp [h1, h]
            · simp [h1, h]
            · simp [h1]
            · simp [h1]
            · simp [h1]
            · exact h3.1 es h1
          · simpa [tryPaths, hp, hsl] using h3.2
      · have h3 := ih (i + 1) s h
        constructor
        · intro es hes
          simp [tryPaths, hp] at hes
          rcases hes with h1 | h1
          · simp [h1, h]
          · exact h3.1 es h1
        · simpa [tryPaths, hp] using h3.2

/-- A trace whose every state has the starting flag clear satisfies the
after-timer predicate for any seen value. -/
theorem afterTimer_of_all_false :
    ∀ tr : List (Event × MState), (∀ es ∈ tr, es.2.isStarting = false) →
      ∀ seen, afterTimerNotStarting seen tr = true := by
  intro tr
  induction tr with
  | nil => intro _ seen; rfl
  | cons e rest ih =>
      intro h seen
      have h1 := h e (List.mem_cons_self e rest)
      have h2 := ih (fun x hx => h x (List.mem_cons_of_mem e hx))
      simp [afterTimerNotStarting, h1, h2]

/-- From the first settle-timer firing onward, every state of a candidate
walk has the starting flag clear. -/
theorem tryPaths_afterTimer (env : StartEnv) :
    ∀ (paths : List String) (i : Nat) (s : MState),
      afterTimerNotStarting false (tryPaths env paths i s).2.2 = true := by
  intro paths
  induction paths with
  | nil => intro i s; rfl
  | cons p rest ih =>
      intro i s
      by_cases hp : probeAt env i = true
      · by_cases hsl : settleAt env i = true
        · simp [tryPaths, hp, hsl, afterTimerNotStarting]
        · have hstates := tryPaths_states_not_starting env rest (i + 1)
            { ollamaProcess := none, isStarting := false } rfl
          have h2 := afterTimer_of_all_false _ hstates.1 true
          simp [tryPaths, hp, hsl, afterTimerNotStarting, h2]
      · have h3 := ih (i + 1) s
        simp [tryPaths, hp, afterTimerNotStarting, h3]

/-- The candidate walk only resolves true or rejects: it never takes the
re-entrancy early return. -/
theorem tryPaths_ne_guard (env : StartEnv) :
    ∀ (paths : List String) (i : Nat) (s : MState),
      (tryPaths env paths i s).1 ≠ StartResult.guardReturn := by
  intro paths
  induction paths with
  | nil => intro i s; simp [tryPaths]
  | cons p rest ih =>
      intro i s
      by_cases hp : probeAt env i = true
      · by_cases hsl : settleAt env i = true
        · simp [tryPaths, hp, hsl]
        · have h3 := ih (i + 1) { ollamaProcess := none, isStarting := false }
          simp [tryPaths, hp, hsl, h3]
      · have h3 := ih (i + 1) s
        simp [tryPaths, hp, h3]

/-- C9: in every startOllama run, from the moment the settle timer of a
spawned candidate fires (that event included) the starting flag is false in
every later state of that run, including during the reachability re-check
and any later candidate attempts; and a startOllama call made from any
state with the flag clear is not stopped by the re-entrancy guard. -/
theorem C9_timer_clears_guard_early (os : Platform) (env : StartEnv) (s : MState) :
    afterTimerNotStarting false (startOllama os env s).2.2 = true ∧
    (∀ (os2 : Platform) (env2 : StartEnv) (s2 : MState), s2.isStarting = false →
      (startOllama os2 env2 s2).1 ≠ StartResult.guardReturn) := by
  constructor
  · by_cases hst : s.isStarting = true
    · simp [startOllama, hst, afterTimerNotStarting]
    · by_cases hr : env.reachableAtStart = true
      · simp [startOllama, hst, hr, afterTimerNotStarting]
      · simpa [startOllama, hst, hr] using
          tryPaths_afterTimer env (getOllamaPath os) 0 { s with isStarting := true }
  · intro os2 env2 s2 h2
    by_cases hr : env2.reachableAtStart = true
    · simp [startOllama, h2, hr]
    · simpa [startOllama, h2, hr] using
        tryPaths_ne_guard env2 (getOllamaPath os2) 0 { s2 with isStarting := true }

/-- C9 witness: a run with a spawned candidate whose settle re-check fails
keeps the flag clear afterwards, and a concurrent call entering from a
clear-flag state passes the guard. -/
theorem C9_timer_clears_guard_witness :
    afterTimerNotStarting false
      (startOllama .linux ⟨false, [true, false], [false, false]⟩ initState).2.2 = true ∧
    (startOllama .linux ⟨false, [], []⟩ initState).1 ≠ StartResult.guardReturn := by
  constructor
  · exact (C9_timer_clears_guard_early .linux
      ⟨false, [true, false], [false, false]⟩ initState).1
  · exact (C9_timer_clears_guard_early .linux ⟨false, [], []⟩ initState).2
      .linux ⟨false, [], []⟩ initState rfl

/-- C4: when the resource listing reports no models (empty or absent
list), ensureModel spawns exactly one pull subcommand for the requested
name using the first candidate path, resolves true exactly when that
subcommand exits with code 0, and a non-zero exit propagates as an error
to the caller; when the listing is non-empty it resolves true without
spawning anything; and a failure of the listing query itself is caught and
yields ok false rather than an error. -/
theorem C4_ensure_default_resource (os : Platform) (name : String) :
    (∀ pull, (ensureModel os (.models (some [])) pull name).1 = .ok true ↔
        pull = .exited 0) ∧
    (∀ pull, (ensureModel os (.models (some [])) pull name).2 =
        [{ exePath := (getOllamaPath os).headD "", args := ["pull", name] }]) ∧
    (∀ c : Int, c ≠ 0 → (ensureModel os (.models (some [])) (.exited c) name).1 =
        .error ("Failed to pull " ++ name)) ∧
    (∀ pull ms, ms ≠ [] →
        ensureModel os (.models (some ms)) pull name = (.ok true, [])) ∧
    (∀ pull, ensureModel os .fetchError pull name = (.ok false, [])) := by
  refine ⟨?_, ?_, ?_, ?_, ?_⟩
  · intro pull
    cases pull with
    | exited c =>
        by_cases hc : c = 0
        · subst hc; simp [ensureModel]
        · simp [ensureModel, hc]
    | procError m => simp [ensureModel]
  · intro pull
    cases pull with
    | exited c =>
        by_cases hc : c = 0
        · subst hc; simp [ensureModel]
        · simp [ensureModel, hc]
    | procError m => simp [ensureModel]
  · intro c hc
    simp [ensureModel, hc]
  · intro pull ms hms
    cases ms with
    | nil => exact absurd rfl hms
    | cons x xs => simp [ensureModel]
  · intro pull
    rfl

/-- C4 witness: applied at the two spec scenarios with name llama2. -/
theorem C4_ensure_default_resource_witness :
    (ensureModel .linux (.models (some [])) (.exited 0) "llama2").1 = .ok true ∧
    (ensureModel .linux (.models (some [])) (.exited 0) "llama2").2 =
      [{ exePath := "/usr/local/bin/ollama", args := ["pull", "llama2"] }] ∧
    ensureModel .linux (.models (some ["llama2"])) (.exited 0) "llama2" =
      (.ok true, []) := by
  refine ⟨?_, ?_, ?_⟩
  · exact ((C4_ensure_default_resource .linux "llama2").1 _).mpr rfl
  · exact (C4_ensure_default_resource .linux "llama2").2.1 _
  · exact (C4_ensure_default_resource .linux "llama2").2.2.2.1 _ ["llama2"] (by simp)

/-- C8: when a handle is owned, stopOllama sends the termination signal to
exactly that handle (one signal, to the owned handle, so it never touches
a process the supervisor did not spawn) and clears the field; it is a
no-op when nothing is owned, leaves the starting flag alone, and is
idempotent: a second call right after is always a no-op. -/
theorem C8_stop_idempotent (s : MState) :
    (stopOllama s).1.ollamaProcess = none ∧
    (stopOllama s).1.isStarting = s.isStarting ∧
    (∀ h, s.ollamaProcess = some h → (stopOllama s).2 = [h]) ∧
    (∀ k ∈ (stopOllama s).2, s.ollamaProcess = some k) ∧
    (s.ollamaProcess = none → stopOllama s = (s, [])) ∧
    stopOllama (stopOllama s).1 = ((stopOllama s).1, []) := by
  cases hs : s.ollamaProcess with
  | none =>
      cases s with
      | mk p b =>
          cases hs
          refine ⟨rfl, rfl, ?_, ?_, fun _ => rfl, rfl⟩
          · intro h hh
            exact absurd hh (by simp)
          · intro k hk
            simp [stopOllama] at hk
  | some h =>
      refine ⟨?_, ?_, ?_, ?_, ?_, ?_⟩
      · simp [stopOllama, hs]
      · simp [stopOllama, hs]
      · intro h2 hh
        injection hh with he
        subst he
        simp [stopOllama, hs]
      · intro k hk
        simp [stopOllama, hs] at hk
        simp [hs, hk]
      · intro h2
        exact absurd h2 (by simp)
      · simp [stopOllama, hs]

/-- C8 witness: stopping a state that owns handle 5 signals exactly that
handle; stop is a no-op on the fresh state; and a second stop right after
stopping the owner is a no-op. -/
theorem C8_stop_idempotent_witness :
    (stopOllama { ollamaProcess := some 5, isStarting := false }).2 = [5] ∧
    stopOllama initState = (initState, []) ∧
    stopOllama (stopOllama { ollamaProcess := some 5, isStarting := false }).1 =
      ((stopOllama { ollamaProcess := some 5, isStarting := false }).1, []) := by
  exact ⟨(C8_stop_idempotent { ollamaProcess := some 5, isStarting := false }).2.2.1 5 rfl,
         (C8_stop_idempotent initState).2.2.2.2.1 rfl,
         (C8_stop_idempotent { ollamaProcess := some 5, isStarting := false }).2.2.2.2.2⟩

/-- C10: whenever the useOllama configuration option read at entry is
false, ensureOllamaReady returns true immediately, leaves the
initialization flag untouched and performs no health check, no
ensureOllamaRunning call (hence no process spawn) and no model pull. -/
theorem C10_use_ollama_off (env : Nat → ReadyEnv) (isInit : Bool) (fuel : Nat)
    (h : (env 0).useOllama = false) :
    ensureOllamaReady env 0 isInit (fuel + 1) = (some true, isInit, []) := by
  simp [ensureOllamaReady, h]

/-- C10 witness: concrete configuration with useOllama disabled. -/
theorem C10_use_ollama_off_witness :
    ensureOllamaReady (fun _ => ⟨false, false, false, false, .cancel⟩) 0 false 1 =
      (some true, false, []) := by
  exact C10_use_ollama_off (fun _ => ⟨false, false, false, false, .cancel⟩) false 0 rfl
